import Mathlib

/-!
# Verification of the javascript-recorder proxy record/replay library

This development is a shallow embedding of `recorder.js`: the `Recorder`
class (operation log, replay engine, reference counting, evaluate,
finalization) and the proxy record handler produced by
`createRecordHandler` (get/set/apply/construct traps, dummy placeholder
objects, `Symbol.dispose`).  JavaScript `Map`/`WeakMap` values are
modelled as association lists, JavaScript values as the inductive
`JValue`, thrown exceptions as `Except`, and the host scheduler
(microtasks, garbage collection) as explicit event sequences.
-/

namespace Rec

/-! ## Association-list maps (model of JavaScript `Map` / `WeakMap`) -/

/-- Lookup in an association list (model of `Map.prototype.get`). -/
def mget {κ α : Type} [DecidableEq κ] : List (κ × α) → κ → Option α
  | [], _ => none
  | (k, v) :: rest, k' => if k = k' then some v else mget rest k'

/-- Remove every binding of a key (model of `Map.prototype.delete`). -/
def merase {κ α : Type} [DecidableEq κ] : List (κ × α) → κ → List (κ × α)
  | [], _ => []
  | (k, v) :: rest, k' => if k = k' then merase rest k' else (k, v) :: merase rest k'

/-- Overwrite the binding of a key (model of `Map.prototype.set`). -/
def mset {κ α : Type} [DecidableEq κ] (m : List (κ × α)) (k : κ) (v : α) :
    List (κ × α) :=
  (k, v) :: merase m k

theorem mget_mset_self {κ α : Type} [DecidableEq κ] (m : List (κ × α)) (k : κ) (v : α) :
    mget (mset m k v) k = some v := by
  simp [mset, mget]

theorem mget_merase_self {κ α : Type} [DecidableEq κ] (m : List (κ × α)) (k : κ) :
    mget (merase m k) k = none := by
  induction m with
  | nil => simp [merase, mget]
  | cons p rest ih =>
    obtain ⟨k', v⟩ := p
    by_cases h : k' = k
    · simpa [merase, h] using ih
    · simp [merase, h, mget, ih]

theorem mget_merase_ne {κ α : Type} [DecidableEq κ] (m : List (κ × α)) (k k' : κ)
    (h : k ≠ k') : mget (merase m k) k' = mget m k' := by
  induction m with
  | nil => simp [merase]
  | cons p rest ih =>
    obtain ⟨a, b⟩ := p
    by_cases ha : a = k
    · subst ha
      simp [merase, mget, h, ih]
    · simp only [merase, ha, if_false, mget]
      by_cases hb : a = k'
      · simp [hb]
      · simp [hb, ih]

theorem mget_mset_ne {κ α : Type} [DecidableEq κ] (m : List (κ × α)) (k k' : κ) (v : α)
    (h : k ≠ k') : mget (mset m k v) k' = mget m k' := by
  simp [mset, mget, h, mget_merase_ne m k k' h]

/-! ## JavaScript values and the replay-side object world

Replay performs real member reads/writes, calls and constructions on a
concrete object graph (spec section 6: "whatever capability the target
object naturally exposes").  Objects live in a heap addressed by `Nat`;
an object optionally carries a call behaviour (it is a function).
External callables are oracles that either return a value or throw. -/

/-- A JavaScript value: `undefined`, `null`, primitives, or a heap reference. -/
inductive JValue : Type where
  | undefined
  | null
  | bool (b : Bool)
  | num (n : Int)
  | str (s : String)
  | ref (r : Nat)
deriving DecidableEq, Repr

/-- Behaviour of a callable object in the replay context: an external
callable either returns a value or throws. -/
inductive FnBehavior : Type where
  | returns (v : JValue)
  | throws (msg : String)
deriving DecidableEq, Repr

/-- Run a call behaviour as the exception monad. -/
def runB : FnBehavior → Except String JValue
  | .returns v => .ok v
  | .throws m => .error m

/-- A heap object: a property table plus an optional call behaviour
(`callB = some b` models a function object). -/
structure JObject : Type where
  props : List (String × JValue)
  callB : Option (FnBehavior)
deriving DecidableEq, Repr

/-- The replay-side heap. -/
abbrev Heap : Type := List (Nat × JObject)

/-- JavaScript truthiness, used by `objectMap.get(target) || context`. -/
def truthy : JValue → Bool
  | .undefined => false
  | .null => false
  | .bool b => b
  | .num n => decide (n ≠ 0)
  | .str s => decide (s ≠ "")
  | .ref _ => true

/-- `obj[property]`: member read.  Reading a member of `undefined`/`null`
throws; a missing member of an object reads as `undefined`; primitives
have no modelled own members. -/
def getProp (h : Heap) (v : JValue) (p : String) : Except String JValue :=
  match v with
  | .undefined => .error "Cannot read properties of undefined"
  | .null => .error "Cannot read properties of null"
  | .ref r =>
    match mget h r with
    | some o => .ok ((mget o.props p).getD .undefined)
    | none => .ok .undefined
  | _ => .ok .undefined

/-- `obj[property] = value`: member write (strict mode, as the code is an
ES module): assigning to a member of a primitive or of `undefined`/`null`
throws. -/
def setProp (h : Heap) (v : JValue) (p : String) (w : JValue) : Except String Heap :=
  match v with
  | .ref r =>
    match mget h r with
    | some o => .ok (mset h r { o with props := mset o.props p w })
    | none => .error "invalid object reference"
  | .undefined => .error "Cannot set properties of undefined"
  | .null => .error "Cannot set properties of null"
  | _ => .error "Cannot create property on a primitive"

/-- `fn.apply(thisArg, args)`: throws when `fn` is `undefined` (reading
`.apply` of `undefined`) or not callable; otherwise runs the callable's
behaviour. -/
def applyValue (h : Heap) (v : JValue) : Except String JValue :=
  match v with
  | .ref r =>
    match mget h r with
    | some o =>
      match o.callB with
      | some b => runB b
      | none => .error "apply is not a function"
    | none => .error "apply is not a function"
  | .undefined => .error "Cannot read properties of undefined"
  | _ => .error "apply is not a function"

/-- `new Constructor(...args)`: throws when the target is not a
constructor; otherwise runs the callable's behaviour. -/
def constructValue (h : Heap) (v : JValue) : Except String JValue :=
  match v with
  | .ref r =>
    match mget h r with
    | some o =>
      match o.callB with
      | some b => runB b
      | none => .error "target is not a constructor"
    | none => .error "target is not a constructor"
  | .undefined => .error "undefined is not a constructor"
  | _ => .error "target is not a constructor"

/-! ## Operation records

`Recorder.record` receives plain objects `{ type, target, property, args,
receiver, constructorName, value, resultId }`; fields the recording trap
did not set are `undefined` (here: a default).  Argument and value
positions carry serialized shapes: a literal, an object-reference marker
`{__recordedObjectId: id}`, a function-channel marker
`{__functionChannel: id}`, or a transferable-stream marker
`{__transferableStream: true}`. -/

/-- Serialized argument/value shape as produced by `serializeArgs` and
consumed by `resolveArgs`/`resolveValue` during replay. -/
inductive SerArg : Type where
  | lit (v : JValue)
  | refMarker (id : String)
  | fnChannel (id : String)
  | stream
deriving DecidableEq, Repr

/-- An operation record.  `type` is a plain string: `_replayOperation`
switches on it and throws on anything unknown. -/
structure Operation : Type where
  type : String
  target : String := "globalThis"
  property : String := ""
  args : List SerArg := []
  receiver : Option String := none
  constructorName : String := ""
  value : SerArg := .lit .undefined
  resultId : Option String := none
deriving DecidableEq, Repr

/-- Record constructor for a `get` operation (replay-relevant fields). -/
def mkGet (tgt p : String) (rid : Option String) : Operation :=
  { type := "get", target := tgt, property := p, resultId := rid }

/-- Record constructor for a `set` operation. -/
def mkSet (tgt p : String) (v : SerArg) : Operation :=
  { type := "set", target := tgt, property := p, value := v }

/-- Record constructor for an `apply` operation. -/
def mkApply (tgt : String) (recv : Option String) (as : List SerArg)
    (rid : Option String) : Operation :=
  { type := "apply", target := tgt, receiver := recv, args := as, resultId := rid }

/-- Record constructor for a `construct` operation. -/
def mkConstruct (tgt : String) (as : List SerArg) (rid : Option String) : Operation :=
  { type := "construct", target := tgt, args := as, resultId := rid }

/-! ## Replay engine (`Recorder._replayRecordings` / `_replayOperation`) -/

/-- The replay-side identifier-to-live-object map (`objectMap`). -/
abbrev ObjMap : Type := List (String × JValue)

/-- Replay-side persistent recorder state: the heap of live objects, an
allocator for fresh heap addresses (used when `_createFunctionFromChannel`
fabricates a wrapper closure), and `this.objectRegistry` (results stored
for `evaluate()`). -/
structure RSt : Type where
  heap : Heap
  nextRef : Nat
  registry : List (String × JValue)
deriving Repr

/-- `objectMap.get(id) || context`: map lookup with fallback to the root
context.  The fallback also fires when the stored value is falsy, because
the code uses `||`. -/
def resolveFallback (m : ObjMap) (ctx : JValue) (id : String) : JValue :=
  match mget m id with
  | some v => if truthy v then v else ctx
  | none => ctx

/-- Resolve one serialized argument/value (`resolveArgs` / `resolveValue`):
a function-channel marker becomes a fresh wrapper closure (created by
`_createFunctionFromChannel`; calling it posts a message and returns
`undefined`), a transferred stream resolves to `undefined`, an object
reference marker is looked up in `objectMap` with no fallback. -/
def resolveSer (m : ObjMap) (st : RSt) : SerArg → JValue × RSt
  | .lit v => (v, st)
  | .refMarker id => ((mget m id).getD .undefined, st)
  | .fnChannel _ =>
    (.ref st.nextRef,
     { st with
        heap := mset st.heap st.nextRef { props := [], callB := some (.returns .undefined) },
        nextRef := st.nextRef + 1 })
  | .stream => (.undefined, st)

/-- Resolve a list of serialized arguments in order. -/
def resolveSerList (m : ObjMap) (st : RSt) : List SerArg → List JValue × RSt
  | [] => ([], st)
  | a :: rest =>
    let (v, st1) := resolveSer m st a
    let (vs, st2) := resolveSerList m st1 rest
    (v :: vs, st2)

/-- Bind an operation result under its `resultId` in both `objectMap` and
`this.objectRegistry`, but only when a `resultId` is present and the
result is neither `undefined` nor `null`. -/
def bindResult (rid : Option String) (result : JValue) (m : ObjMap) (st : RSt) :
    ObjMap × RSt :=
  match rid with
  | some id =>
    if result = .undefined ∨ result = .null then (m, st)
    else (mset m id result, { st with registry := mset st.registry id result })
  | none => (m, st)

/-- `Recorder._replayOperation`: replay a single operation record.
Returns the JavaScript result (or the thrown error) together with the
updated `objectMap` and recorder state.  Note the asymmetry taken
directly from the source: `get`/`set` resolve their target with
`objectMap.get(target) || context` and `apply` resolves its receiver the
same way, but `apply`/`construct` resolve their target with a bare
`objectMap.get(target)` (yielding `undefined` when absent). -/
def replayOperation (op : Operation) (ctx : JValue) (m : ObjMap) (st : RSt) :
    Except String JValue × ObjMap × RSt :=
  if op.type = "get" then
    let obj := resolveFallback m ctx op.target
    match getProp st.heap obj op.property with
    | .error e => (.error e, m, st)
    | .ok result =>
      let (m1, st1) := bindResult op.resultId result m st
      (.ok result, m1, st1)
  else if op.type = "set" then
    let setObj := resolveFallback m ctx op.target
    let (rv, st1) := resolveSer m st op.value
    match setProp st1.heap setObj op.property rv with
    | .error e => (.error e, m, st1)
    | .ok h1 => (.ok (.bool true), m, { st1 with heap := h1 })
  else if op.type = "apply" then
    let fn := (mget m op.target).getD .undefined
    let _thisArg :=
      match op.receiver with
      | some r => resolveFallback m ctx r
      | none => ctx
    let (_rargs, st1) := resolveSerList m st op.args
    match applyValue st1.heap fn with
    | .error e => (.error e, m, st1)
    | .ok result =>
      let (m1, st2) := bindResult op.resultId result m st1
      (.ok result, m1, st2)
  else if op.type = "construct" then
    let cv := (mget m op.target).getD .undefined
    let (_rargs, st1) := resolveSerList m st op.args
    match constructValue st1.heap cv with
    | .error e => (.error e, m, st1)
    | .ok result =>
      let (m1, st2) := bindResult op.resultId result m st1
      (.ok result, m1, st2)
  else
    (.error ("Unknown operation type: " ++ op.type), m, st)

/-- One entry of the replay `results` list: either the operation's value
or the `{ error: message }` object pushed by the `catch` branch. -/
inductive RResult : Type where
  | value (v : JValue)
  | errorEntry (msg : String)
deriving DecidableEq, Repr

/-- Turn the outcome of one operation into its results-list entry. -/
def exceptToEntry : Except String JValue → RResult
  | .ok v => .value v
  | .error e => .errorEntry e

/-- The `for ... try/catch` loop body of `_replayRecordings`: every
thrown error is caught and converted into an `{error}` entry, and the
loop continues with the remaining records. -/
def replayGo (ops : List Operation) (ctx : JValue) (m : ObjMap) (st : RSt) :
    List RResult × RSt :=
  match ops with
  | [] => ([], st)
  | op :: rest =>
    match replayOperation op ctx m st with
    | (.ok v, m1, st1) =>
      let (rs, st2) := replayGo rest ctx m1 st1
      (.value v :: rs, st2)
    | (.error e, m1, st1) =>
      let (rs, st2) := replayGo rest ctx m1 st1
      (.errorEntry e :: rs, st2)

/-- The `objectMap` freshly constructed by `_replayRecordings`:
`new Map()` followed by `objectMap.set('globalThis', context)`. -/
def initialObjectMap (ctx : JValue) : ObjMap :=
  mset [] "globalThis" ctx

/-- `Recorder._replayRecordings`: seed a fresh object map with the root
binding, then replay all records. -/
def replayRecordings (ops : List Operation) (ctx : JValue) (st : RSt) :
    List RResult × RSt :=
  replayGo ops ctx (initialObjectMap ctx) st

/-- Replay-facing recorder state: the operation log plus the persistent
replay-side state and the configured replay context. -/
structure RecorderSt : Type where
  recordings : List Operation
  rst : RSt
  replayContext : Option JValue
deriving Repr

/-- `Recorder.replay(context)`: copy and clear the log, then replay the
copy via `_replayRecordings`, returning the results list. -/
def Recorder.replay (r : RecorderSt) (ctx : JValue) : List RResult × RecorderSt :=
  let (res, st1) := replayRecordings r.recordings ctx r.rst
  (res, { r with recordings := [], rst := st1 })

/-- `Recorder._autoReplay`: no-op without a replay context or with an
empty log; otherwise copy-and-clear then `_replayRecordings` (results
discarded). -/
def Recorder.autoReplay (r : RecorderSt) : RecorderSt :=
  match r.replayContext with
  | none => r
  | some ctx =>
    if r.recordings = [] then r
    else
      let (_, st1) := replayRecordings r.recordings ctx r.rst
      { r with recordings := [], rst := st1 }

/-- The `replay` branch of `Recorder._handlePortMessage`: a port-delivered
batch is replayed against the configured replay context via
`_replayRecordings` (no-op when no replay context is configured). -/
def Recorder.handleReplayMessage (ops : List Operation) (r : RecorderSt) : RecorderSt :=
  match r.replayContext with
  | none => r
  | some ctx =>
    let (_, st1) := replayRecordings ops ctx r.rst
    { r with rst := st1 }

/-! ## Replay-engine theorems -/

/-- Every record contributes exactly one entry to the results list: the
replay loop is total and never aborts. -/
theorem replayGo_length (ops : List Operation) (ctx : JValue) (m : ObjMap) (st : RSt) :
    (replayGo ops ctx m st).1.length = ops.length := by
  induction ops generalizing m st with
  | nil => simp [replayGo]
  | cons op rest ih =>
    cases h : replayOperation op ctx m st with
    | mk res rest' =>
      obtain ⟨m1, st1⟩ := rest'
      cases res with
      | ok v => simp [replayGo, h, ih]
      | error e => simp [replayGo, h, ih]

/-- Claim C3: replay partial-failure containment.  If replaying a record
throws (and an unknown operation type throws for that record), the error
is caught and pushed as an error entry at that record's position, every
subsequent record is still replayed from the post-failure state, and the
loop never throws: it returns one entry per record. -/
theorem replay_partial_failure_containment
    (ctx : JValue) (m : ObjMap) (st : RSt) (op : Operation) (rest : List Operation)
    (e : String) (m1 : ObjMap) (st1 : RSt)
    (h : replayOperation op ctx m st = (.error e, m1, st1)) :
    replayGo (op :: rest) ctx m st =
      (RResult.errorEntry e :: (replayGo rest ctx m1 st1).1,
        (replayGo rest ctx m1 st1).2)
    ∧ (replayGo (op :: rest) ctx m st).1.length = rest.length + 1
    ∧ ∀ t : String, t ≠ "get" → t ≠ "set" → t ≠ "apply" → t ≠ "construct" →
        ∀ (o : Operation) (m0 : ObjMap) (st0 : RSt), o.type = t →
          (replayOperation o ctx m0 st0).1 = .error ("Unknown operation type: " ++ t) := by
  refine ⟨?_, ?_, ?_⟩
  · simp [replayGo, h]
  · simpa using replayGo_length (op :: rest) ctx m st
  · intro t h1 h2 h3 h4 o m0 st0 ho
    simp [replayOperation, ho, h1, h2, h3, h4]

/-- Witness for the containment theorem: a record with the unknown type
`frob` is caught as an error entry and the following `get` record is
still replayed. -/
theorem replay_partial_failure_containment_witness :
    replayGo [{ type := "frob" }, mkGet "globalThis" "x" none] (.ref 0)
        (initialObjectMap (.ref 0)) ⟨[], 0, []⟩ =
      (RResult.errorEntry ("Unknown operation type: " ++ "frob") ::
          (replayGo [mkGet "globalThis" "x" none] (.ref 0)
            (initialObjectMap (.ref 0)) ⟨[], 0, []⟩).1,
        (replayGo [mkGet "globalThis" "x" none] (.ref 0)
          (initialObjectMap (.ref 0)) ⟨[], 0, []⟩).2) :=
  (replay_partial_failure_containment (.ref 0) (initialObjectMap (.ref 0)) ⟨[], 0, []⟩
    { type := "frob" } [mkGet "globalThis" "x" none]
    ("Unknown operation type: " ++ "frob") (initialObjectMap (.ref 0)) ⟨[], 0, []⟩ rfl).1

/-- Claim C4 counterexample: targetId resolution does NOT fall back to
the root for every operation kind.  With a callable root context (a call
to it returns `7`), replaying a single `apply` record whose target is
absent from the map fails with a thrown error instead of invoking the
root: `_replayOperation` reads `objectMap.get(target)` with no
`|| context` in the `apply` case, so the target resolves to `undefined`
even though calling the root would have succeeded. -/
theorem replay_target_fallback_counterexample :
    (replayRecordings [mkApply "missing" none [] none] (.ref 0)
        ⟨[(0, ⟨[], some (.returns (.num 7))⟩)], 1, []⟩).1
      = [RResult.errorEntry "Cannot read properties of undefined"]
    ∧ applyValue [(0, ⟨[], some (.returns (.num 7))⟩)] (.ref 0) = .ok (.num 7) :=
  ⟨by decide, rfl⟩

/-- Claim C4 (amended): `get` and `set` resolve their targetId through
the Reference Map with fallback to the root context when absent, and
`apply` resolves its receiverId the same way; but `apply` and `construct`
resolve their targetId with a bare map lookup and no fallback, so an
absent identifier yields `undefined` and the record fails (receiverId is
ignored by `get`, `set`, and `construct` at replay). -/
theorem replay_target_resolution_amended
    (ctx : JValue) (m : ObjMap) (st : RSt) (id p : String) (rid recv : Option String)
    (h : mget m id = none) :
    resolveFallback m ctx id = ctx
    ∧ (replayOperation (mkGet id p rid) ctx m st).1 = getProp st.heap ctx p
    ∧ (∀ w : JValue, (replayOperation (mkSet id p (.lit w)) ctx m st).1
        = (setProp st.heap ctx p w).map fun _ => JValue.bool true)
    ∧ (replayOperation (mkApply id recv [] rid) ctx m st).1
        = .error "Cannot read properties of undefined"
    ∧ (replayOperation (mkConstruct id [] rid) ctx m st).1
        = .error "undefined is not a constructor" := by
  have hres : resolveFallback m ctx id = ctx := by simp [resolveFallback, h]
  refine ⟨hres, ?_, ?_, ?_, ?_⟩
  · cases hg : getProp st.heap ctx p with
    | ok v => simp [replayOperation, mkGet, hres, hg, bindResult]
    | error e => simp [replayOperation, mkGet, hres, hg]
  · intro w
    cases hs : setProp st.heap ctx p w with
    | ok h1 => simp [replayOperation, mkSet, hres, resolveSer, hs, Except.map]
    | error e => simp [replayOperation, mkSet, hres, resolveSer, hs, Except.map]
  · simp [replayOperation, mkApply, h, resolveSerList, applyValue]
  · simp [replayOperation, mkConstruct, h, resolveSerList, constructValue]

/-- Witness for the amended resolution theorem at concrete inputs. -/
theorem replay_target_resolution_amended_witness :
    (replayOperation (mkApply "nope" none [] none) (.ref 0)
        (initialObjectMap (.ref 0)) ⟨[], 0, []⟩).1
      = .error "Cannot read properties of undefined" :=
  (replay_target_resolution_amended (.ref 0) (initialObjectMap (.ref 0)) ⟨[], 0, []⟩
    "nope" "x" none none (by decide)).2.2.2.1

/-- Claim C10: every replay invocation starts from a fresh Reference Map
holding only the root binding.  All three entry points (`replay`,
`_autoReplay`, and the port-delivered `replay` message) go through
`_replayRecordings`, which news the map; hence in a later batch an
identifier bound by an earlier batch resolves like an unknown one: a
`get` target falls back to the root, an `apply` target resolves to
`undefined` and fails, and a `{__recordedObjectId}` argument marker
resolves to `undefined`. -/
theorem replay_fresh_reference_map
    (ctx : JValue) (r : RecorderSt) (b1 : List Operation) (id p : String)
    (rid recv : Option String) (h : id ≠ "globalThis") :
    (∀ st : RSt, (replayRecordings [mkGet id p rid] ctx st).1
        = [exceptToEntry (getProp st.heap ctx p)])
    ∧ (∀ st : RSt, (replayRecordings [mkApply id recv [] rid] ctx st).1
        = [RResult.errorEntry "Cannot read properties of undefined"])
    ∧ (∀ st : RSt, resolveSer (initialObjectMap ctx) st (.refMarker id) = (.undefined, st))
    ∧ (Recorder.replay { (Recorder.replay { r with recordings := b1 } ctx).2 with
          recordings := [mkGet id p rid] } ctx).1
        = [exceptToEntry
            (getProp (Recorder.replay { r with recordings := b1 } ctx).2.rst.heap ctx p)]
    ∧ (∀ r2 : RecorderSt, Recorder.replay r2 ctx
        = ((replayRecordings r2.recordings ctx r2.rst).1,
           { r2 with recordings := [],
                     rst := (replayRecordings r2.recordings ctx r2.rst).2 }))
    ∧ (∀ (ops : List Operation) (r2 : RecorderSt), r2.replayContext = some ctx →
        Recorder.handleReplayMessage ops r2
          = { r2 with rst := (replayRecordings ops ctx r2.rst).2 })
    ∧ (∀ r2 : RecorderSt, r2.replayContext = some ctx → r2.recordings ≠ [] →
        Recorder.autoReplay r2
          = { r2 with recordings := [],
                      rst := (replayRecordings r2.recordings ctx r2.rst).2 }) := by
  have hid : ¬("globalThis" = id) := fun hh => h hh.symm
  have hmiss : mget (initialObjectMap ctx) id = none := by
    simp [initialObjectMap, mset, merase, mget, hid]
  have hget : ∀ st : RSt, (replayRecordings [mkGet id p rid] ctx st).1
      = [exceptToEntry (getProp st.heap ctx p)] := by
    intro st
    have hres : resolveFallback (initialObjectMap ctx) ctx id = ctx := by
      simp [resolveFallback, hmiss]
    cases hg : getProp st.heap ctx p with
    | ok v =>
      simp [replayRecordings, replayGo, replayOperation, mkGet, hres, hg, exceptToEntry]
    | error e =>
      simp [replayRecordings, replayGo, replayOperation, mkGet, hres, hg, exceptToEntry]
  refine ⟨hget, ?_, ?_, ?_, ?_, ?_, ?_⟩
  · intro st
    simp [replayRecordings, replayGo, replayOperation, mkApply, hmiss,
      resolveSerList, applyValue]
  · intro st
    simp [resolveSer, hmiss]
  · simpa [Recorder.replay] using
      hget (Recorder.replay { r with recordings := b1 } ctx).2.rst
  · intro r2
    simp [Recorder.replay]
  · intro ops r2 hctx
    simp [Recorder.handleReplayMessage, hctx]
  · intro r2 hctx hne
    simp [Recorder.autoReplay, hctx, hne]

/-- Witness for the fresh-map theorem: after replaying a first batch that
binds `obj_0`, a second batch reading `obj_0.x` resolves the target to
the root context. -/
theorem replay_fresh_reference_map_witness :
    (replayRecordings [mkGet "obj_0" "x" none] (.ref 0) ⟨[], 0, []⟩).1
      = [exceptToEntry (getProp ([] : Heap) (.ref 0) "x")] :=
  (replay_fresh_reference_map (.ref 0) ⟨[], ⟨[], 0, []⟩, none⟩ [] "obj_0" "x"
    none none (by decide)).1 ⟨[], 0, []⟩

/-! ## Reference counting (`_updateRefCount` / `incrementRefCount` /
`decrementRefCount`)

Counts are JavaScript numbers, modelled as `Int`; an entry absent from
`objectRefCounts` reads as `0`.  Reaching a count of zero (or the
negative-count underflow, corrected with a warning) deletes the
identifier from both `objectRefCounts` and `objectRegistry`. -/

/-- Reference-count state: `this.objectRefCounts` and
`this.objectRegistry`. -/
structure RefSt : Type where
  counts : List (String × Int)
  registry : List (String × JValue)
deriving DecidableEq, Repr

/-- `Recorder._updateRefCount(objectId, delta)`. -/
def updateRefCount (st : RefSt) (id : String) (delta : Int) : RefSt :=
  let currentCount := (mget st.counts id).getD 0
  let newCount := currentCount + delta
  if newCount < 0 then
    { counts := merase st.counts id, registry := merase st.registry id }
  else if newCount = 0 then
    { counts := merase st.counts id, registry := merase st.registry id }
  else
    { st with counts := mset st.counts id newCount }

/-- `Recorder.incrementRefCount(objectId)` (the port mirror message is a
transport effect with no bearing on the local tables). -/
def incrementRefCount (st : RefSt) (id : String) : RefSt :=
  updateRefCount st id 1

/-- `Recorder.decrementRefCount(objectId)`. -/
def decrementRefCount (st : RefSt) (id : String) : RefSt :=
  updateRefCount st id (-1)

/-- The stored reference count of an identifier, an absent entry reading
as zero. -/
def getCount (st : RefSt) (id : String) : Int :=
  (mget st.counts id).getD 0

/-- Iterate `incrementRefCount` n times. -/
def incN (st : RefSt) (id : String) : Nat → RefSt
  | 0 => st
  | n + 1 => incN (incrementRefCount st id) id n

/-- Iterate `decrementRefCount` n times. -/
def decN (st : RefSt) (id : String) : Nat → RefSt
  | 0 => st
  | n + 1 => decN (decrementRefCount st id) id n

theorem getCount_inc (st : RefSt) (id : String) (h : 0 ≤ getCount st id) :
    getCount (incrementRefCount st id) id = getCount st id + 1 := by
  have hpos : ¬(getCount st id + 1 < 0) := by omega
  have hne : ¬(getCount st id + 1 = 0) := by omega
  simp only [incrementRefCount, updateRefCount, getCount] at *
  simp [hpos, hne, mget_mset_self]

theorem registry_inc (st : RefSt) (id : String) (h : 0 ≤ getCount st id) :
    (incrementRefCount st id).registry = st.registry := by
  have hpos : ¬(getCount st id + 1 < 0) := by omega
  have hne : ¬(getCount st id + 1 = 0) := by omega
  simp only [incrementRefCount, updateRefCount, getCount] at *
  simp [hpos, hne]

theorem incN_spec (n : Nat) (st : RefSt) (id : String) (h : 0 ≤ getCount st id) :
    getCount (incN st id n) id = getCount st id + n
    ∧ (incN st id n).registry = st.registry := by
  induction n generalizing st with
  | zero => simp [incN]
  | succ k ih =>
    have h1 := getCount_inc st id h
    have h2 := registry_inc st id h
    have h0 : 0 ≤ getCount (incrementRefCount st id) id := by omega
    obtain ⟨ha, hb⟩ := ih (incrementRefCount st id) h0
    refine ⟨?_, ?_⟩
    · simp only [incN, ha, h1]
      omega
    · simp only [incN, hb, h2]

/-- Decrementing from a positive count stores the predecessor; reaching
zero deletes the identifier from both tables. -/
theorem dec_from_pos (st : RefSt) (id : String) (h : 1 ≤ getCount st id) :
    getCount (decrementRefCount st id) id = getCount st id - 1
    ∧ ((getCount st id = 1) →
        mget (decrementRefCount st id).counts id = none
        ∧ mget (decrementRefCount st id).registry id = none)
    ∧ ((1 < getCount st id) →
        (decrementRefCount st id).registry = st.registry) := by
  by_cases h1 : getCount st id = 1
  · have hlt : ¬(getCount st id + (-1) < 0) := by omega
    have heq : getCount st id + (-1) = 0 := by omega
    constructor
    · simp only [decrementRefCount, updateRefCount, getCount] at *
      simp [hlt, heq, mget_merase_self]
      omega
    · constructor
      · intro _
        simp only [decrementRefCount, updateRefCount, getCount] at *
        simp [hlt, heq, mget_merase_self]
      · intro hgt
        omega
  · have hgt : 1 < getCount st id := by omega
    have hlt : ¬(getCount st id + (-1) < 0) := by omega
    have hne : ¬(getCount st id + (-1) = 0) := by omega
    refine ⟨?_, fun he => absurd he h1, fun _ => ?_⟩
    · simp only [decrementRefCount, updateRefCount, getCount] at *
      simp [hlt, hne, mget_mset_self]
      omega
    · simp only [decrementRefCount, updateRefCount, getCount] at *
      simp [hlt, hne]

theorem decN_from (k : Nat) (c : Int) (st : RefSt) (id : String)
    (hc : 0 ≤ c) (h : getCount st id = k + c) :
    getCount (decN st id k) id = c
    ∧ (c = 0 → 1 ≤ k →
        mget (decN st id k).counts id = none
        ∧ mget (decN st id k).registry id = none) := by
  induction k generalizing st with
  | zero =>
    simp only [decN]
    exact ⟨by omega, fun _ hk => absurd hk (by omega)⟩
  | succ j ih =>
    have hpos : 1 ≤ getCount st id := by omega
    obtain ⟨hd, hz, _⟩ := dec_from_pos st id hpos
    by_cases hj : j = 0 ∧ c = 0
    · obtain ⟨hj0, hc0⟩ := hj
      subst hj0; subst hc0
      have h1 : getCount st id = 1 := by omega
      obtain ⟨hcn, hrn⟩ := hz h1
      refine ⟨?_, fun _ _ => ⟨?_, ?_⟩⟩
      · simp [decN, getCount, hcn]
      · simpa [decN] using hcn
      · simpa [decN] using hrn
    · have hnext : getCount (decrementRefCount st id) id = j + c := by omega
      obtain ⟨ha, hb⟩ := ih (decrementRefCount st id) hnext
      refine ⟨by simpa [decN] using ha, fun hc0 _ => ?_⟩
      by_cases hj0 : j = 0
      · exact absurd ⟨hj0, hc0⟩ hj
      · simpa [decN] using hb hc0 (by omega)

/-- Claim C6: reference-count round trip.  From any state whose stored
count for the identifier is non-negative (an absent entry reading as
zero — the only states `_updateRefCount` ever produces), n increments
followed by n decrements return the stored count to exactly its
pre-acquire value, and whenever the count returns to zero the
identifier's entries are deleted from both the reference-count table and
the object registry. -/
theorem refcount_round_trip (st : RefSt) (id : String) (n : Nat)
    (h : 0 ≤ getCount st id) :
    getCount (decN (incN st id n) id n) id = getCount st id
    ∧ (getCount st id = 0 → 1 ≤ n →
        mget (decN (incN st id n) id n).counts id = none
        ∧ mget (decN (incN st id n) id n).registry id = none) := by
  obtain ⟨hcount, _⟩ := incN_spec n st id h
  have hc : getCount (incN st id n) id = n + getCount st id := by omega
  obtain ⟨ha, hb⟩ := decN_from n (getCount st id) (incN st id n) id h hc
  exact ⟨ha, fun h0 h1 => hb h0 h1⟩

/-- Witness for the round trip: identifier `a` starting with count 0
(absent), incremented and decremented 3 times, ends absent from both
tables with count 0. -/
theorem refcount_round_trip_witness :
    getCount (decN (incN ⟨[], []⟩ "a" 3) "a" 3) "a" = getCount ⟨[], []⟩ "a"
    ∧ mget (decN (incN (⟨[], []⟩ : RefSt) "a" 3) "a" 3).counts "a" = none := by
  have h := refcount_round_trip ⟨[], []⟩ "a" 3 (by decide)
  exact ⟨h.1, (h.2 (by decide) (by decide)).1⟩

/-! ## Disposal and finalization of a placeholder proxy

`createDummyObject` installs a `Symbol.dispose` function guarded by a
closure flag `disposeCalled` and registers the proxy with the
`FinalizationRegistry`.  Explicit disposal unregisters the proxy before
decrementing, so the finalization callback can no longer fire for it;
the host calls a registered finalization callback at most once, and only
while the object can no longer be used, so in any real schedule the
finalization event is last.  `_handleFinalization` decrements only when
the identifier still has a positive stored count. -/

/-- Lifecycle state of one placeholder proxy: the recorder's
reference-count tables, the `disposeCalled` closure flag, whether the
proxy is still registered with the `FinalizationRegistry`, and a tally of
how many reference-count decrements the two disposal paths performed for
the proxy's identifier. -/
structure ProxyLife : Type where
  ref : RefSt
  disposeCalled : Bool
  registered : Bool
  decrements : Nat
deriving DecidableEq, Repr

/-- The `Symbol.dispose` function defined on the proxy: if not already
disposed, unregister from finalization, decrement the identifier's
reference count, and set the `disposeCalled` flag. -/
def disposeProxy (id : String) (s : ProxyLife) : ProxyLife :=
  if s.disposeCalled then s
  else
    { ref := decrementRefCount s.ref id
      disposeCalled := true
      registered := false
      decrements := s.decrements + 1 }

/-- The `FinalizationRegistry` callback path (`_handleFinalization`),
which the host runs at most once and only while the proxy is still
registered: decrement only when the stored count exists and is
positive. -/
def finalizeProxy (id : String) (s : ProxyLife) : ProxyLife :=
  if s.registered then
    let s1 := { s with registered := false }
    match mget s1.ref.counts id with
    | some c =>
      if 0 < c then
        { s1 with ref := updateRefCount s1.ref id (-1), decrements := s1.decrements + 1 }
      else s1
    | none => s1
  else s

/-- A lifecycle event on one proxy. -/
inductive LifeEv : Type where
  | dispose
  | finalize
deriving DecidableEq, Repr

/-- Run a sequence of lifecycle events. -/
def runLife (id : String) : List LifeEv → ProxyLife → ProxyLife
  | [], s => s
  | .dispose :: rest, s => runLife id rest (disposeProxy id s)
  | .finalize :: rest, s => runLife id rest (finalizeProxy id s)

/-- A valid host schedule for one proxy: any number of explicit dispose
calls, then at most one garbage-collection finalization (a finalized
proxy is unreachable, so no call can follow it). -/
def lifeEvents (n : Nat) (fin : Bool) : List LifeEv :=
  List.replicate n .dispose ++ (if fin then [.finalize] else [])

theorem disposeProxy_disposed (id : String) (s : ProxyLife) (h : s.disposeCalled = true) :
    disposeProxy id s = s := by
  simp [disposeProxy, h]

theorem runLife_append (id : String) (l1 l2 : List LifeEv) (s : ProxyLife) :
    runLife id (l1 ++ l2) s = runLife id l2 (runLife id l1 s) := by
  induction l1 generalizing s with
  | nil => simp [runLife]
  | cons e rest ih =>
    cases e with
    | dispose => simp [runLife, ih]
    | finalize => simp [runLife, ih]

theorem runLife_replicate_disposed (id : String) (k : Nat) (s : ProxyLife)
    (h : s.disposeCalled = true) :
    runLife id (List.replicate k .dispose) s = s := by
  induction k with
  | zero => simp [runLife]
  | succ j ih =>
    simp [List.replicate_succ, runLife, disposeProxy_disposed id s h, ih]

/-- Claim C7: release idempotence across the two disposal paths.  For a
freshly created placeholder (not yet disposed, registered for
finalization, with a positive stored count from the creation-time
increment), any schedule of n explicit `Symbol.dispose` calls followed by
at most one finalization performs exactly one reference-count decrement —
unless nothing at all happens.  In particular a second dispose call is a
no-op and a disposed proxy is never decremented again by finalization. -/
theorem dispose_finalize_single_decrement (rs : RefSt) (id : String) (n : Nat)
    (fin : Bool) (h : 1 ≤ getCount rs id) :
    (runLife id (lifeEvents n fin)
        { ref := rs, disposeCalled := false, registered := true, decrements := 0 }).decrements
      = (if n = 0 ∧ fin = false then 0 else 1) := by
  cases n with
  | zero =>
    cases fin with
    | false => simp [lifeEvents, runLife]
    | true =>
      have hsome : ∃ c : Int, mget rs.counts id = some c ∧ 0 < c := by
        unfold getCount at h
        cases hm : mget rs.counts id with
        | none => rw [hm] at h; simp at h
        | some c =>
          rw [hm] at h
          exact ⟨c, rfl, by simpa using h⟩
      obtain ⟨c, hm, hc⟩ := hsome
      simp [lifeEvents, runLife, finalizeProxy, hm, hc]
  | succ k =>
    have hstep : disposeProxy id
        { ref := rs, disposeCalled := false, registered := true, decrements := 0 }
        = { ref := decrementRefCount rs id, disposeCalled := true,
            registered := false, decrements := 1 } := by
      simp [disposeProxy]
    have hrest : runLife id (List.replicate k .dispose)
        { ref := decrementRefCount rs id, disposeCalled := true,
          registered := false, decrements := 1 }
        = { ref := decrementRefCount rs id, disposeCalled := true,
            registered := false, decrements := 1 } :=
      runLife_replicate_disposed id k _ rfl
    cases fin with
    | false =>
      simp [lifeEvents, List.replicate_succ, runLife, hstep, hrest]
    | true =>
      simp only [lifeEvents, List.replicate_succ, List.cons_append, runLife, hstep,
        if_true]
      rw [List.append_eq, runLife_append, hrest]
      simp [finalizeProxy, runLife]

/-- Witness for the single-decrement theorem: two explicit dispose calls
followed by a finalization attempt perform exactly one decrement. -/
theorem dispose_finalize_single_decrement_witness :
    (runLife "a" (lifeEvents 2 true)
        { ref := ⟨[("a", 1)], []⟩, disposeCalled := false, registered := true,
          decrements := 0 }).decrements = 1 := by
  have h := dispose_finalize_single_decrement ⟨[("a", 1)], []⟩ "a" 2 true (by decide)
  simpa using h

/-! ## `Recorder.evaluate` preconditions

`evaluate(proxyRef)` first checks `this.port`, then extracts
`proxyRef?.__recordedObjectId` and checks its truthiness; only after both
checks does it create a response channel and post the `evaluate`
message.  The model returns the outcome together with the list of
messages posted. -/

/-- `Recorder.evaluate`: `hasPort` is whether `this.port` is configured,
`ref` is the extracted `__recordedObjectId` (`none` when the argument is
nullish or lacks the field; the code also rejects a falsy empty
string). -/
def evaluate (hasPort : Bool) (ref : Option String) : Except String Unit × List String :=
  if hasPort = false then
    (.error "Cannot evaluate: no MessagePort configured", [])
  else
    match ref with
    | none => (.error "Invalid proxy reference: missing __recordedObjectId", [])
    | some id =>
      if id = "" then (.error "Invalid proxy reference: missing __recordedObjectId", [])
      else (.ok (), [id])

/-- Claim C8: `evaluate` with no MessagePort fails with the
no-port error before any asynchronous step, an argument without a truthy
`__recordedObjectId` fails with the invalid-reference error, and in
neither failure case is any message posted (the posted-message list is
empty); with a port and a valid reference exactly the `evaluate` request
is posted. -/
theorem evaluate_precondition_failure :
    (∀ ref : Option String,
      evaluate false ref = (.error "Cannot evaluate: no MessagePort configured", []))
    ∧ evaluate true none
        = (.error "Invalid proxy reference: missing __recordedObjectId", [])
    ∧ evaluate true (some "")
        = (.error "Invalid proxy reference: missing __recordedObjectId", [])
    ∧ ∀ id : String, id ≠ "" → evaluate true (some id) = (.ok (), [id]) := by
  refine ⟨fun ref => rfl, rfl, rfl, fun id h => ?_⟩
  simp [evaluate, h]

/-- Witness for the evaluate precondition theorem. -/
theorem evaluate_precondition_failure_witness :
    evaluate false (some "obj_1")
        = (.error "Cannot evaluate: no MessagePort configured", [])
    ∧ evaluate true (some "obj_1") = (.ok (), ["obj_1"]) :=
  ⟨evaluate_precondition_failure.1 (some "obj_1"),
   evaluate_precondition_failure.2.2.2 "obj_1" (by decide)⟩

/-! ## Flush scheduling (`Recorder.record` + `_sendOperationsViaPort`)

Cross-context mode: a port is configured and `autoReplay` is on.
`record` appends to the log and, guarded by `replayScheduled`, queues at
most one microtask; the microtask clears the flag and then posts the
batch, copying and clearing `recordings` and `pendingTransferables`
before the `postMessage` call.  The host scheduler is modelled as a
sequence of events: an append (the trap pushed `ts` transferables via
`serializeArgs` and then called `record`), or the running of one queued
flush microtask. -/

/-- Scheduler-facing recorder state for cross-context flushing. -/
structure FlushSt : Type where
  recordings : List Operation
  pendingTransferables : List Nat
  replayScheduled : Bool
  microtasks : Nat
  outbox : List (List Operation × List Nat)
  recordingEnabled : Bool
deriving DecidableEq, Repr

/-- A scheduler event: a recorded operation (with the transferables its
serialization pushed), or the host running one queued flush microtask. -/
inductive FlushEv : Type where
  | append (op : Operation) (ts : List Nat)
  | flush
deriving DecidableEq, Repr

/-- One scheduler step. -/
def stepF (e : FlushEv) (st : FlushSt) : FlushSt :=
  match e with
  | .append op ts =>
    let st0 := { st with pendingTransferables := st.pendingTransferables ++ ts }
    if st0.recordingEnabled then
      let st1 := { st0 with recordings := st0.recordings ++ [op] }
      if st1.replayScheduled then st1
      else { st1 with replayScheduled := true, microtasks := st1.microtasks + 1 }
    else st0
  | .flush =>
    if st.microtasks = 0 then st
    else
      let st1 := { st with microtasks := st.microtasks - 1, replayScheduled := false }
      if st1.recordings = [] then st1
      else
        { st1 with
            outbox := st1.outbox ++ [(st1.recordings, st1.pendingTransferables)],
            recordings := [], pendingTransferables := [] }

/-- Run a sequence of scheduler events. -/
def runF : List FlushEv → FlushSt → FlushSt
  | [], st => st
  | e :: rest, st => runF rest (stepF e st)

/-- The initial cross-context recorder state. -/
def initFlush : FlushSt :=
  { recordings := [], pendingTransferables := [], replayScheduled := false,
    microtasks := 0, outbox := [], recordingEnabled := true }

/-- All operations appended by a run, in order. -/
def appendedOps : List FlushEv → List Operation
  | [] => []
  | .append op _ :: rest => op :: appendedOps rest
  | .flush :: rest => appendedOps rest

/-- All transferables pushed by a run, in order. -/
def appendedTs : List FlushEv → List Nat
  | [] => []
  | .append _ ts :: rest => ts ++ appendedTs rest
  | .flush :: rest => appendedTs rest

/-- The scheduling invariant: the number of queued flush microtasks
equals the `replayScheduled` flag, and recording stays enabled. -/
def okF (st : FlushSt) : Prop :=
  st.microtasks = (if st.replayScheduled then 1 else 0) ∧ st.recordingEnabled = true

theorem stepF_ok (e : FlushEv) (st : FlushSt) (h : okF st) :
    okF (stepF e st)
    ∧ ((stepF e st).outbox.map Prod.fst).flatten ++ (stepF e st).recordings
        = (st.outbox.map Prod.fst).flatten ++ st.recordings ++ appendedOps [e]
    ∧ ((stepF e st).outbox.map Prod.snd).flatten ++ (stepF e st).pendingTransferables
        = (st.outbox.map Prod.snd).flatten ++ st.pendingTransferables ++ appendedTs [e] := by
  obtain ⟨hm, he⟩ := h
  cases e with
  | append op ts =>
    by_cases hs : st.replayScheduled
    · refine ⟨⟨?_, ?_⟩, ?_, ?_⟩ <;> simp [stepF, he, hs, appendedOps, appendedTs, hm]
    · refine ⟨⟨?_, ?_⟩, ?_, ?_⟩ <;> simp [stepF, he, hs, appendedOps, appendedTs, hm]
  | flush =>
    by_cases hs : st.replayScheduled
    · have hm1 : st.microtasks = 1 := by simp [hm, hs]
      by_cases hr : st.recordings = []
      · refine ⟨⟨?_, ?_⟩, ?_, ?_⟩ <;>
          simp [stepF, hm1, hr, he, appendedOps, appendedTs]
      · refine ⟨⟨?_, ?_⟩, ?_, ?_⟩ <;>
          simp [stepF, hm1, hr, he, appendedOps, appendedTs]
    · have hm0 : st.microtasks = 0 := by simp [hm, hs]
      refine ⟨⟨?_, ?_⟩, ?_, ?_⟩ <;>
        simp [stepF, hm0, hm, hs, he, appendedOps, appendedTs]

theorem runF_ok (evs : List FlushEv) (st : FlushSt) (h : okF st) :
    okF (runF evs st)
    ∧ ((runF evs st).outbox.map Prod.fst).flatten ++ (runF evs st).recordings
        = (st.outbox.map Prod.fst).flatten ++ st.recordings ++ appendedOps evs
    ∧ ((runF evs st).outbox.map Prod.snd).flatten ++ (runF evs st).pendingTransferables
        = (st.outbox.map Prod.snd).flatten ++ st.pendingTransferables ++ appendedTs evs := by
  induction evs generalizing st with
  | nil => simp [runF, appendedOps, appendedTs, h]
  | cons e rest ih =>
    obtain ⟨h1, h2, h3⟩ := stepF_ok e st h
    obtain ⟨g1, g2, g3⟩ := ih (stepF e st) h1
    refine ⟨g1, ?_, ?_⟩
    · rw [runF, g2, h2]
      cases e <;> simp [appendedOps]
    · rw [runF, g3, h3]
      cases e <;> simp [appendedTs]

/-- Claim C5: flush coalescing without duplication.  In every scheduler
run from the initial state, at most one flush microtask is pending (the
count matches the `replayScheduled` flag, so a second append while a
flush is pending schedules nothing); the flushed batches in the outbox
together with the not-yet-flushed log are exactly the appended
operations, in order and without duplication (so every record appears in
exactly one outbound batch, and a record appended after a flush ran is
never sent twice); the pending-transferables list partitions the same
way; and one append step increments the queued-microtask count only when
no flush was already scheduled. -/
theorem flush_coalescing_no_duplication (evs : List FlushEv) :
    ((runF evs initFlush).microtasks
        = (if (runF evs initFlush).replayScheduled then 1 else 0))
    ∧ ((runF evs initFlush).outbox.map Prod.fst).flatten ++ (runF evs initFlush).recordings
        = appendedOps evs
    ∧ ((runF evs initFlush).outbox.map Prod.snd).flatten
          ++ (runF evs initFlush).pendingTransferables
        = appendedTs evs
    ∧ ∀ (op : Operation) (ts : List Nat) (st0 : FlushSt),
        (stepF (.append op ts) st0).microtasks
          = cond (st0.recordingEnabled && !st0.replayScheduled)
              (st0.microtasks + 1) st0.microtasks := by
  obtain ⟨h1, h2, h3⟩ := runF_ok evs initFlush ⟨by simp [initFlush], rfl⟩
  refine ⟨h1.1, ?_, ?_, ?_⟩
  · simpa [initFlush] using h2
  · simpa [initFlush] using h3
  · intro op ts st0
    cases he : st0.recordingEnabled <;> cases hs : st0.replayScheduled <;>
      simp [stepF, he, hs]

/-! ## The recording proxy handler (`createRecordHandler`)

A stand-in is a `Proxy` over either the user-supplied root target or a
fresh `function () {}` dummy (whose inferred `name` is `"dummy"`).  The
root target is modelled as a spy with interaction counters.  Object
identity (the `WeakMap` keys of `objectIds` / `functionChannels`) is
modelled by `Nat` tokens; the record handler's shared `counter` mints
both `obj_<n>` and `channel_<n>` identifiers. -/

/-- What a proxy wraps: the user-supplied root target (the spy), or a
fresh dummy function created by `createDummyObject`. -/
inductive TargetKind : Type where
  | spy
  | dummy
deriving DecidableEq, Repr

/-- A recording proxy value: its object identity, the identifier it is
bound to (`targetId` of the handler closure), and what it wraps. -/
structure ProxyV : Type where
  pid : Nat
  targetId : String
  kind : TargetKind
deriving DecidableEq, Repr

/-- The spy modelling the underlying root target: counters for member
reads, member writes, calls and constructions performed on it, its `name`
member (empty meaning none, which `||` turns into `Anonymous`), and its
member table. -/
structure SpyState : Type where
  reads : Nat
  writes : Nat
  calls : Nat
  constructs : Nat
  nameValue : String
  props : List (String × JValue)
deriving DecidableEq, Repr

/-- Recording-side state shared by all handlers of one recorder: the
operation log, the shared id `counter`, the `objectIds` WeakMap (object
identity to identifier), an allocator for fresh object identities, the
reference-count tables, the function-to-channel WeakMap, the channel
registry, the pending transferables, and the spy target. -/
structure RecSt : Type where
  recordings : List Operation
  ctr : Nat
  objectIds : List (Nat × String)
  nextPid : Nat
  ref : RefSt
  functionChannels : List (Nat × String)
  activeChannels : List String
  pendingTransferables : List Nat
  spy : SpyState
deriving DecidableEq, Repr

/-- Identifier scheme of the shared counter. -/
def mkId (n : Nat) : String := "obj_" ++ toString n

/-- Channel identifier scheme. -/
def mkChannelId (n : Nat) : String := "channel_" ++ toString n

/-- `recorder.record(op)` in a recorder without a port or replay context:
append to the log (recording is enabled throughout). -/
def recordOp (op : Operation) (st : RecSt) : RecSt :=
  { st with recordings := st.recordings ++ [op] }

/-- `getObjectId(obj)` for a proxy object: look up its identity in the
shared WeakMap, assigning `obj_<counter++>` on a miss. -/
def getObjectId (q : ProxyV) (st : RecSt) : String × RecSt :=
  match mget st.objectIds q.pid with
  | some id => (id, st)
  | none =>
    (mkId st.ctr,
     { st with ctr := st.ctr + 1, objectIds := mset st.objectIds q.pid (mkId st.ctr) })

/-- `getObjectId` applied to a possibly-`undefined` receiver (returns
`null` for a nullish argument). -/
def getObjectIdOpt (q : Option ProxyV) (st : RecSt) : Option String × RecSt :=
  match q with
  | none => (none, st)
  | some p =>
    let (id, st1) := getObjectId p st
    (some id, st1)

/-- `createDummyObject(id)`: a fresh function-backed proxy registered in
`objectIds` under `id`, with `Symbol.dispose` support installed and the
creation-time `incrementRefCount(id)` (`Symbol.dispose` is available in
the modelled host), plus `FinalizationRegistry` registration. -/
def createDummyObject (id : String) (st : RecSt) : ProxyV × RecSt :=
  let p : ProxyV := { pid := st.nextPid, targetId := id, kind := .dummy }
  (p,
   { st with
      nextPid := st.nextPid + 1,
      objectIds := mset st.objectIds p.pid id,
      ref := incrementRefCount st.ref id })

/-- `getOrCreateFunctionChannel(fn)`: reuse the channel stored for this
function identity, or mint `channel_<counter++>`, register it, and set
up its ports. -/
def getOrCreateFunctionChannel (fid : Nat) (st : RecSt) : String × RecSt :=
  match mget st.functionChannels fid with
  | some cid => (cid, st)
  | none =>
    let cid := mkChannelId st.ctr
    (cid,
     { st with
        ctr := st.ctr + 1,
        functionChannels := mset st.functionChannels fid cid,
        activeChannels := st.activeChannels ++ [cid] })

/-- A property key observed by the `get`/`set` traps: a string key, or
one of the two specially handled well-known symbols. -/
inductive PropKey : Type where
  | str (s : String)
  | symIterator
  | symToStringTag
deriving DecidableEq, Repr

/-- String conversion of the key as `String(property)` produces it. -/
def keyString : PropKey → String
  | .str s => s
  | .symIterator => "Symbol(Symbol.iterator)"
  | .symToStringTag => "Symbol(Symbol.toStringTag)"

/-- A value passed by the caller as a `set` value or call argument: a
primitive, a recording proxy, a plain user function (identified by a
`Nat` token), or a transferable stream. -/
inductive ArgVal : Type where
  | prim (v : JValue)
  | proxy (q : ProxyV)
  | func (fid : Nat)
  | stream (tid : Nat)
deriving DecidableEq, Repr

/-- One entry of `serializeArgs` (apply/construct): objects with a known
id become reference markers; `typeof`-function values (which includes
every dummy proxy, as dummies wrap functions) become reference markers if
known, else get a function channel whose port is pushed to the pending
transferables; streams are marked and pushed; everything else passes
through.  The raw passthrough of a never-identified object-backed root
stand-in carries a value outside the modelled universe; it is resolved
here to an unspecified placeholder, which no modelled behaviour observes
because external callables are argument-oblivious oracles. -/
def serializeArg (a : ArgVal) (st : RecSt) : SerArg × RecSt :=
  match a with
  | .prim v => (.lit v, st)
  | .proxy q =>
    match q.kind with
    | .dummy =>
      match mget st.objectIds q.pid with
      | some id => (.refMarker id, st)
      | none =>
        let (cid, st1) := getOrCreateFunctionChannel q.pid st
        (.fnChannel cid,
         { st1 with pendingTransferables := st1.pendingTransferables ++ [q.pid] })
    | .spy =>
      match mget st.objectIds q.pid with
      | some id => (.refMarker id, st)
      | none => (.lit .undefined, st)
  | .func fid =>
    match mget st.objectIds fid with
    | some id => (.refMarker id, st)
    | none =>
      let (cid, st1) := getOrCreateFunctionChannel fid st
      (.fnChannel cid,
       { st1 with pendingTransferables := st1.pendingTransferables ++ [fid] })
  | .stream tid =>
    (.stream, { st with pendingTransferables := st.pendingTransferables ++ [tid] })

/-- `serializeArgs`: serialize a list of arguments left to right. -/
def serializeArgs (as : List ArgVal) (st : RecSt) : List SerArg × RecSt :=
  match as with
  | [] => ([], st)
  | a :: rest =>
    let (s, st1) := serializeArg a st
    let (ss, st2) := serializeArgs rest st1
    (s :: ss, st2)

/-- The result of the `get` trap: a fixed neutral value for the reserved
introspection keys, or a fresh chainable placeholder. -/
inductive GetResult : Type where
  | value (v : JValue)
  | placeholder (p : ProxyV)
deriving DecidableEq, Repr

/-- The `get` trap: `then` answers `undefined`, `Symbol.toStringTag`
answers `RecorderProxy`, `Symbol.iterator` answers `undefined`, none of
them recorded; every other key mints a `resultId`, records a `get` with
the receiver's id, and returns a fresh dummy placeholder bound to the
`resultId` — without touching the target. -/
def getTrap (p : ProxyV) (k : PropKey) (st : RecSt) : GetResult × RecSt :=
  match k with
  | .str s =>
    if s = "then" then (.value .undefined, st)
    else
      let resultId := mkId st.ctr
      let st1 := { st with ctr := st.ctr + 1 }
      let (recvId, st2) := getObjectId p st1
      let st3 := recordOp
        { type := "get", target := p.targetId, property := s,
          receiver := some recvId, resultId := some resultId } st2
      let (q, st4) := createDummyObject resultId st3
      (.placeholder q, st4)
  | .symIterator => (.value .undefined, st)
  | .symToStringTag => (.value (.str "RecorderProxy"), st)

/-- The `set` trap: a `typeof`-function value (a user function or any
dummy proxy) is serialized as a function channel whose port is pushed to
the pending transferables; a stream is marked and pushed; any other
object gets (or is assigned) an id and becomes a reference marker;
primitives pass through.  The trap records the `set` and returns `true`
without assigning anything. -/
def setTrap (p : ProxyV) (k : PropKey) (v : ArgVal) (st : RecSt) : Bool × RecSt :=
  match v with
  | .func fid =>
    let (cid, st1) := getOrCreateFunctionChannel fid st
    let (recvId, st2) := getObjectId p st1
    let st3 := recordOp
      { type := "set", target := p.targetId, property := keyString k,
        value := .fnChannel cid, receiver := some recvId } st2
    (true, { st3 with pendingTransferables := st3.pendingTransferables ++ [fid] })
  | .proxy q =>
    match q.kind with
    | .dummy =>
      let (cid, st1) := getOrCreateFunctionChannel q.pid st
      let (recvId, st2) := getObjectId p st1
      let st3 := recordOp
        { type := "set", target := p.targetId, property := keyString k,
          value := .fnChannel cid, receiver := some recvId } st2
      (true, { st3 with pendingTransferables := st3.pendingTransferables ++ [q.pid] })
    | .spy =>
      let (vid, st1) := getObjectId q st
      let (recvId, st2) := getObjectId p st1
      let st3 := recordOp
        { type := "set", target := p.targetId, property := keyString k,
          value := .refMarker vid, receiver := some recvId } st2
      (true, st3)
  | .stream tid =>
    let (recvId, st1) := getObjectId p st
    let st2 := recordOp
      { type := "set", target := p.targetId, property := keyString k,
        value := .stream, receiver := some recvId } st1
    (true, { st2 with pendingTransferables := st2.pendingTransferables ++ [tid] })
  | .prim w =>
    let (recvId, st1) := getObjectId p st
    let st2 := recordOp
      { type := "set", target := p.targetId, property := keyString k,
        value := .lit w, receiver := some recvId } st1
    (true, st2)

/-- The `apply` trap: mint a `resultId`, record the call with the
receiver's id and serialized arguments, and return a fresh placeholder —
without calling anything. -/
def applyTrap (p : ProxyV) (thisArg : Option ProxyV) (as : List ArgVal) (st : RecSt) :
    ProxyV × RecSt :=
  let resultId := mkId st.ctr
  let st1 := { st with ctr := st.ctr + 1 }
  let (recvId, st2) := getObjectIdOpt thisArg st1
  let (sargs, st3) := serializeArgs as st2
  let st4 := recordOp
    { type := "apply", target := p.targetId, receiver := recvId,
      args := sargs, resultId := some resultId } st3
  createDummyObject resultId st4

/-- Reading `target?.name` in the `construct` trap: on the root this is a
member read of the underlying spy target (its read counter advances); on
a dummy the inferred function name is `dummy`. -/
def readTargetName (p : ProxyV) (st : RecSt) : String × RecSt :=
  match p.kind with
  | .spy =>
    (st.spy.nameValue, { st with spy := { st.spy with reads := st.spy.reads + 1 } })
  | .dummy => ("dummy", st)

/-- The `construct` trap: mint a `resultId`, serialize the arguments,
read `target?.name` (falling back to `Anonymous` when falsy), record the
construction, and return a fresh placeholder — without constructing
anything. -/
def constructTrap (p : ProxyV) (as : List ArgVal) (st : RecSt) : ProxyV × RecSt :=
  let resultId := mkId st.ctr
  let st1 := { st with ctr := st.ctr + 1 }
  let (sargs, st2) := serializeArgs as st1
  let (nm, st3) := readTargetName p st2
  let st4 := recordOp
    { type := "construct", target := p.targetId, args := sargs,
      constructorName := if nm = "" then "Anonymous" else nm,
      resultId := some resultId } st3
  createDummyObject resultId st4

/-- The caller-facing machine: the recorder state plus every proxy the
caller can reach (the root stand-in at index 0 and every placeholder
returned so far). -/
structure MachineSt : Type where
  rs : RecSt
  proxies : List ProxyV
deriving DecidableEq, Repr

/-- A caller action: one of the four operation kinds performed on the
reachable proxy with the given index (out-of-range indices do
nothing). -/
inductive Action : Type where
  | get (i : Nat) (k : PropKey)
  | set (i : Nat) (k : PropKey) (v : ArgVal)
  | apply (i : Nat) (thisIdx : Option Nat) (as : List ArgVal)
  | construct (i : Nat) (as : List ArgVal)
deriving DecidableEq, Repr

/-- One caller action against the machine. -/
def stepM (a : Action) (ms : MachineSt) : MachineSt :=
  match a with
  | .get i k =>
    match ms.proxies[i]? with
    | none => ms
    | some p =>
      match getTrap p k ms.rs with
      | (.value _, st1) => { ms with rs := st1 }
      | (.placeholder q, st1) => { rs := st1, proxies := ms.proxies ++ [q] }
  | .set i k v =>
    match ms.proxies[i]? with
    | none => ms
    | some p => { ms with rs := (setTrap p k v ms.rs).2 }
  | .apply i ti as =>
    match ms.proxies[i]? with
    | none => ms
    | some p =>
      let (q, st1) := applyTrap p (ti.bind fun j => ms.proxies[j]?) as ms.rs
      { rs := st1, proxies := ms.proxies ++ [q] }
  | .construct i as =>
    match ms.proxies[i]? with
    | none => ms
    | some p =>
      let (q, st1) := constructTrap p as ms.rs
      { rs := st1, proxies := ms.proxies ++ [q] }

/-- Run a sequence of caller actions. -/
def runM : List Action → MachineSt → MachineSt
  | [], ms => ms
  | a :: rest, ms => runM rest (stepM a ms)

/-- The root stand-in: identity 0, bound to the well-known root
identifier, wrapping the spy target, with no `objectIds` entry (as in
`createRecordedObject`). -/
def rootProxy : ProxyV := { pid := 0, targetId := "globalThis", kind := .spy }

/-- A fresh recorder driving a root stand-in over the given spy
target. -/
def initMachine (sp : SpyState) : MachineSt :=
  { rs := { recordings := [], ctr := 0, objectIds := [], nextPid := 1,
            ref := ⟨[], []⟩, functionChannels := [], activeChannels := [],
            pendingTransferables := [], spy := sp },
    proxies := [rootProxy] }

/-! ## Recording-side theorems -/

theorem getObjectId_spy (q : ProxyV) (st : RecSt) :
    (getObjectId q st).2.spy = st.spy := by
  cases h : mget st.objectIds q.pid <;> simp [getObjectId, h]

theorem getObjectIdOpt_spy (q : Option ProxyV) (st : RecSt) :
    (getObjectIdOpt q st).2.spy = st.spy := by
  cases q with
  | none => rfl
  | some p => simp [getObjectIdOpt, getObjectId_spy]

theorem getOrCreateFunctionChannel_spy (fid : Nat) (st : RecSt) :
    (getOrCreateFunctionChannel fid st).2.spy = st.spy := by
  cases h : mget st.functionChannels fid <;> simp [getOrCreateFunctionChannel, h]

theorem recordOp_spy (op : Operation) (st : RecSt) : (recordOp op st).spy = st.spy := rfl

theorem createDummyObject_spy (id : String) (st : RecSt) :
    (createDummyObject id st).2.spy = st.spy := rfl

theorem serializeArg_spy (a : ArgVal) (st : RecSt) :
    (serializeArg a st).2.spy = st.spy := by
  cases a with
  | prim v => rfl
  | proxy q =>
    cases hk : q.kind <;> cases h : mget st.objectIds q.pid <;>
      simp [serializeArg, hk, h, getOrCreateFunctionChannel_spy]
  | func fid =>
    cases h : mget st.objectIds fid <;>
      simp [serializeArg, h, getOrCreateFunctionChannel_spy]
  | stream tid => rfl

theorem serializeArgs_spy (as : List ArgVal) (st : RecSt) :
    (serializeArgs as st).2.spy = st.spy := by
  induction as generalizing st with
  | nil => rfl
  | cons a rest ih =>
    rcases ha : serializeArg a st with ⟨s, st1⟩
    have h1 : st1.spy = st.spy := by
      have := serializeArg_spy a st
      rw [ha] at this
      exact this
    rcases hr : serializeArgs rest st1 with ⟨ss, st2⟩
    have h2 : st2.spy = st1.spy := by
      have := ih st1
      rw [hr] at this
      exact this
    simp [serializeArgs, ha, hr, h1, h2]

theorem getTrap_spy (p : ProxyV) (k : PropKey) (st : RecSt) :
    (getTrap p k st).2.spy = st.spy := by
  cases k with
  | str s =>
    by_cases hs : s = "then"
    · simp [getTrap, hs]
    · cases hm : mget st.objectIds p.pid <;>
        simp [getTrap, hs, getObjectId, hm, recordOp, createDummyObject]
  | symIterator => rfl
  | symToStringTag => rfl

theorem setTrap_spec (p : ProxyV) (k : PropKey) (v : ArgVal) (st : RecSt) :
    (setTrap p k v st).1 = true ∧ (setTrap p k v st).2.spy = st.spy := by
  cases v with
  | prim w =>
    cases hm : mget st.objectIds p.pid <;>
      simp [setTrap, getObjectId, hm, recordOp]
  | proxy q =>
    cases hk : q.kind
    · rcases h1 : getObjectId q st with ⟨vid, st1⟩
      have e1 : st1.spy = st.spy := by
        have := getObjectId_spy q st
        rw [h1] at this
        exact this
      rcases h2 : getObjectId p st1 with ⟨rid, st2⟩
      have e2 : st2.spy = st1.spy := by
        have := getObjectId_spy p st1
        rw [h2] at this
        exact this
      simp [setTrap, hk, h1, h2, recordOp, e1, e2]
    · rcases hc : getOrCreateFunctionChannel q.pid st with ⟨cid, st1⟩
      have e1 : st1.spy = st.spy := by
        have := getOrCreateFunctionChannel_spy q.pid st
        rw [hc] at this
        exact this
      rcases h2 : getObjectId p st1 with ⟨rid, st2⟩
      have e2 : st2.spy = st1.spy := by
        have := getObjectId_spy p st1
        rw [h2] at this
        exact this
      simp [setTrap, hk, hc, h2, recordOp, e1, e2]
  | func fid =>
    rcases hc : getOrCreateFunctionChannel fid st with ⟨cid, st1⟩
    have e1 : st1.spy = st.spy := by
      have := getOrCreateFunctionChannel_spy fid st
      rw [hc] at this
      exact this
    rcases h2 : getObjectId p st1 with ⟨rid, st2⟩
    have e2 : st2.spy = st1.spy := by
      have := getObjectId_spy p st1
      rw [h2] at this
      exact this
    simp [setTrap, hc, h2, recordOp, e1, e2]
  | stream tid =>
    cases hm : mget st.objectIds p.pid <;>
      simp [setTrap, getObjectId, hm, recordOp]

theorem applyTrap_spy (p : ProxyV) (t : Option ProxyV) (as : List ArgVal) (st : RecSt) :
    (applyTrap p t as st).2.spy = st.spy := by
  rcases hro : getObjectIdOpt t { st with ctr := st.ctr + 1 } with ⟨rid, st2⟩
  have e2 : st2.spy = st.spy := by
    have := getObjectIdOpt_spy t { st with ctr := st.ctr + 1 }
    rw [hro] at this
    exact this
  rcases hs : serializeArgs as st2 with ⟨sargs, st3⟩
  have e3 : st3.spy = st2.spy := by
    have := serializeArgs_spy as st2
    rw [hs] at this
    exact this
  simp [applyTrap, hro, hs, recordOp, createDummyObject, e2, e3]

theorem constructTrap_spy (p : ProxyV) (as : List ArgVal) (st : RecSt) :
    (constructTrap p as st).2.spy
      = (match p.kind with
         | .spy => { st.spy with reads := st.spy.reads + 1 }
         | .dummy => st.spy) := by
  rcases hs : serializeArgs as { st with ctr := st.ctr + 1 } with ⟨sargs, st2⟩
  have e2 : st2.spy = st.spy := by
    have := serializeArgs_spy as { st with ctr := st.ctr + 1 }
    rw [hs] at this
    exact this
  cases hk : p.kind <;>
    simp [constructTrap, hs, readTargetName, hk, recordOp, createDummyObject, e2]

/-- Count of construct operations performed on the root stand-in. -/
def rootConstructCount : List Action → Nat
  | [] => 0
  | a :: rest =>
    (match a with
     | .construct 0 _ => 1
     | _ => 0) + rootConstructCount rest

theorem mem_of_getElemQ {α : Type} (l : List α) (j : Nat) (a : α)
    (h : l[j]? = some a) : a ∈ l := by
  induction l generalizing j with
  | nil => simp at h
  | cons x xs ih =>
    cases j with
    | zero =>
      simp at h
      simp [h]
    | succ n =>
      simp only [List.getElem?_cons_succ] at h
      exact List.mem_cons_of_mem _ (ih n h)

/-- Shape of the reachable-proxy list: the root stand-in at index 0 and
only dummy placeholders after it. -/
def proxiesShape (l : List ProxyV) : Prop :=
  ∃ ds : List ProxyV, l = rootProxy :: ds ∧ ∀ q ∈ ds, q.kind = .dummy

theorem getTrap_placeholder_dummy (p : ProxyV) (k : PropKey) (st : RecSt)
    (q : ProxyV) (st1 : RecSt) (h : getTrap p k st = (.placeholder q, st1)) :
    q.kind = .dummy := by
  cases k with
  | str s =>
    by_cases hs : s = "then"
    · simp [getTrap, hs] at h
    · cases hm : mget st.objectIds p.pid <;>
        · simp [getTrap, hs, getObjectId, hm, recordOp, createDummyObject] at h
          rw [← h.1]
  | symIterator => simp [getTrap] at h
  | symToStringTag => simp [getTrap] at h

theorem applyTrap_dummy (p : ProxyV) (t : Option ProxyV) (as : List ArgVal)
    (st : RecSt) : (applyTrap p t as st).1.kind = .dummy := by
  rcases hro : getObjectIdOpt t { st with ctr := st.ctr + 1 } with ⟨rid, st2⟩
  rcases hs : serializeArgs as st2 with ⟨sargs, st3⟩
  simp [applyTrap, hro, hs, createDummyObject]

theorem constructTrap_dummy (p : ProxyV) (as : List ArgVal) (st : RecSt) :
    (constructTrap p as st).1.kind = .dummy := by
  rcases hs : serializeArgs as { st with ctr := st.ctr + 1 } with ⟨sargs, st2⟩
  cases hk : p.kind <;>
    simp [constructTrap, hs, readTargetName, hk, createDummyObject]

theorem stepM_spy (a : Action) (ms : MachineSt) (h : proxiesShape ms.proxies) :
    (stepM a ms).rs.spy
      = { ms.rs.spy with
          reads := ms.rs.spy.reads
            + (match a with | .construct 0 _ => 1 | _ => 0) }
    ∧ proxiesShape (stepM a ms).proxies := by
  obtain ⟨mrs, mpx⟩ := ms
  obtain ⟨ds, hds, hdummy⟩ := h
  simp only at hds
  subst hds
  cases a with
  | get i k =>
    cases hp : (rootProxy :: ds)[i]? with
    | none => exact ⟨by simp [stepM, hp], ⟨ds, by simp [stepM, hp], hdummy⟩⟩
    | some p =>
      cases hg : getTrap p k mrs with
      | mk res st1 =>
        have hspy : st1.spy = mrs.spy := by
          have := getTrap_spy p k mrs
          rw [hg] at this
          exact this
        cases res with
        | value v =>
          exact ⟨by simp [stepM, hp, hg, hspy],
            ⟨ds, by simp [stepM, hp, hg], hdummy⟩⟩
        | placeholder q =>
          refine ⟨by simp [stepM, hp, hg, hspy], ⟨ds ++ [q], ?_, ?_⟩⟩
          · simp [stepM, hp, hg]
          · intro x hx
            rcases List.mem_append.1 hx with hx | hx
            · exact hdummy x hx
            · have hx2 : x = q := List.mem_singleton.1 hx
              rw [hx2]
              exact getTrap_placeholder_dummy p k mrs q st1 hg
  | set i k v =>
    cases hp : (rootProxy :: ds)[i]? with
    | none => exact ⟨by simp [stepM, hp], ⟨ds, by simp [stepM, hp], hdummy⟩⟩
    | some p =>
      exact ⟨by simp [stepM, hp, (setTrap_spec p k v mrs).2],
        ⟨ds, by simp [stepM, hp], hdummy⟩⟩
  | apply i ti as =>
    cases hp : (rootProxy :: ds)[i]? with
    | none => exact ⟨by simp [stepM, hp], ⟨ds, by simp [stepM, hp], hdummy⟩⟩
    | some p =>
      refine ⟨by simp [stepM, hp, applyTrap_spy],
        ⟨ds ++ [(applyTrap p (ti.bind fun j => (rootProxy :: ds)[j]?) as mrs).1], ?_, ?_⟩⟩
      · simp [stepM, hp]
      · intro x hx
        rcases List.mem_append.1 hx with hx | hx
        · exact hdummy x hx
        · rcases List.mem_singleton.1 hx with rfl
          exact applyTrap_dummy p (ti.bind fun j => (rootProxy :: ds)[j]?) as mrs
  | construct i as =>
    cases i with
    | zero =>
      have hk : rootProxy.kind = .spy := rfl
      refine ⟨?_, ⟨ds ++ [(constructTrap rootProxy as mrs).1], ?_, ?_⟩⟩
      · have := constructTrap_spy rootProxy as mrs
        simp only [hk] at this
        simp [stepM, this]
      · simp [stepM]
      · intro x hx
        rcases List.mem_append.1 hx with hx | hx
        · exact hdummy x hx
        · rcases List.mem_singleton.1 hx with rfl
          exact constructTrap_dummy rootProxy as mrs
    | succ j =>
      cases hp : (rootProxy :: ds)[j + 1]? with
      | none => exact ⟨by simp [stepM, hp], ⟨ds, by simp [stepM, hp], hdummy⟩⟩
      | some p =>
        have hk : p.kind = .dummy := by
          apply hdummy
          have hj : ds[j]? = some p := by simpa using hp
          exact mem_of_getElemQ ds j p hj
        refine ⟨?_, ⟨ds ++ [(constructTrap p as mrs).1], ?_, ?_⟩⟩
        · have := constructTrap_spy p as mrs
          simp only [hk] at this
          simp [stepM, hp, this]
        · simp [stepM, hp]
        · intro x hx
          rcases List.mem_append.1 hx with hx | hx
          · exact hdummy x hx
          · rcases List.mem_singleton.1 hx with rfl
            exact constructTrap_dummy p as mrs

theorem runM_spy (acts : List Action) (ms : MachineSt) (h : proxiesShape ms.proxies) :
    (runM acts ms).rs.spy
      = { ms.rs.spy with reads := ms.rs.spy.reads + rootConstructCount acts } := by
  induction acts generalizing ms with
  | nil => simp [runM, rootConstructCount]
  | cons a rest ih =>
    obtain ⟨h1, h2⟩ := stepM_spy a ms h
    rw [runM, ih (stepM a ms) h2, h1]
    cases a with
    | get i k => simp [rootConstructCount]
    | set i k v => simp [rootConstructCount]
    | apply i ti as => simp [rootConstructCount]
    | construct i as =>
      cases i <;> simp [rootConstructCount, Nat.add_assoc, Nat.add_comm]

/-- Claim C1 counterexample: recording is not entirely free of reads on
the underlying target.  A single `construct` operation on the root
stand-in makes the `construct` trap evaluate `target?.name`, a member
read of the underlying spy target: its read counter becomes 1, not 0 as
the claim (no property of the target is read) requires. -/
theorem recording_reads_target_name_counterexample :
    (runM [.construct 0 []]
        (initMachine { reads := 0, writes := 0, calls := 0, constructs := 0,
                       nameValue := "Spy", props := [] })).rs.spy.reads = 1
    ∧ ¬ ((runM [.construct 0 []]
        (initMachine { reads := 0, writes := 0, calls := 0, constructs := 0,
                       nameValue := "Spy", props := [] })).rs.spy.reads = 0) := by
  refine ⟨?_, ?_⟩ <;> decide

theorem getObjectId_nextPid (q : ProxyV) (st : RecSt) :
    (getObjectId q st).2.nextPid = st.nextPid := by
  cases h : mget st.objectIds q.pid <;> simp [getObjectId, h]

theorem getObjectIdOpt_nextPid (q : Option ProxyV) (st : RecSt) :
    (getObjectIdOpt q st).2.nextPid = st.nextPid := by
  cases q with
  | none => rfl
  | some p => simp [getObjectIdOpt, getObjectId_nextPid]

theorem getOrCreateFunctionChannel_nextPid (fid : Nat) (st : RecSt) :
    (getOrCreateFunctionChannel fid st).2.nextPid = st.nextPid := by
  cases h : mget st.functionChannels fid <;> simp [getOrCreateFunctionChannel, h]

theorem serializeArg_nextPid (a : ArgVal) (st : RecSt) :
    (serializeArg a st).2.nextPid = st.nextPid := by
  cases a with
  | prim v => rfl
  | proxy q =>
    cases hk : q.kind <;> cases h : mget st.objectIds q.pid <;>
      simp [serializeArg, hk, h, getOrCreateFunctionChannel_nextPid]
  | func fid =>
    cases h : mget st.objectIds fid <;>
      simp [serializeArg, h, getOrCreateFunctionChannel_nextPid]
  | stream tid => rfl

theorem serializeArgs_nextPid (as : List ArgVal) (st : RecSt) :
    (serializeArgs as st).2.nextPid = st.nextPid := by
  induction as generalizing st with
  | nil => rfl
  | cons a rest ih =>
    rcases ha : serializeArg a st with ⟨s, st1⟩
    have h1 : st1.nextPid = st.nextPid := by
      have := serializeArg_nextPid a st
      rw [ha] at this
      exact this
    rcases hr : serializeArgs rest st1 with ⟨ss, st2⟩
    have h2 : st2.nextPid = st1.nextPid := by
      have := ih st1
      rw [hr] at this
      exact this
    simp [serializeArgs, ha, hr, h1, h2]

theorem getTrap_fresh (p : ProxyV) (s : String) (st : RecSt) :
    s = "then" ∨ (getTrap p (.str s) st).1
      = .placeholder { pid := st.nextPid, targetId := mkId st.ctr, kind := .dummy } := by
  by_cases hs : s = "then"
  · exact Or.inl hs
  · refine Or.inr ?_
    cases hm : mget st.objectIds p.pid <;>
      simp [getTrap, hs, getObjectId, hm, recordOp, createDummyObject]

theorem applyTrap_fresh (p : ProxyV) (t : Option ProxyV) (as : List ArgVal)
    (st : RecSt) : (applyTrap p t as st).1
      = { pid := st.nextPid, targetId := mkId st.ctr, kind := .dummy } := by
  rcases hro : getObjectIdOpt t { st with ctr := st.ctr + 1 } with ⟨rid, st2⟩
  have e2 : st2.nextPid = st.nextPid := by
    have := getObjectIdOpt_nextPid t { st with ctr := st.ctr + 1 }
    rw [hro] at this
    exact this
  rcases hs : serializeArgs as st2 with ⟨sargs, st3⟩
  have e3 : st3.nextPid = st2.nextPid := by
    have := serializeArgs_nextPid as st2
    rw [hs] at this
    exact this
  simp [applyTrap, hro, hs, recordOp, createDummyObject, e2, e3]

theorem constructTrap_fresh (p : ProxyV) (as : List ArgVal) (st : RecSt) :
    (constructTrap p as st).1
      = { pid := st.nextPid, targetId := mkId st.ctr, kind := .dummy } := by
  rcases hs : serializeArgs as { st with ctr := st.ctr + 1 } with ⟨sargs, st2⟩
  have e2 : st2.nextPid = st.nextPid := by
    have := serializeArgs_nextPid as { st with ctr := st.ctr + 1 }
    rw [hs] at this
    exact this
  cases hk : p.kind <;>
    simp [constructTrap, hs, readTargetName, hk, recordOp, createDummyObject, e2]

/-- Claim C1 (amended): recording performs no real side effect on the
underlying target except that each `construct` operation on the root
stand-in reads the target's `name` member (to record a constructor
name).  For every action sequence, the spy's write, call, and construct
counters, its member table, and its `name` are unchanged — only its read
counter advances, by exactly the number of root constructions.
Moreover the `set` trap always reports `true` and leaves the target
untouched, the `get` and `apply` traps never touch the target, and
`get` (off the reserved keys), `apply`, and `construct` each return a
freshly allocated placeholder bound to the newly minted result
identifier. -/
theorem recording_no_side_effects_amended (acts : List Action) (sp : SpyState) :
    (runM acts (initMachine sp)).rs.spy
        = { sp with reads := sp.reads + rootConstructCount acts }
    ∧ (∀ (p : ProxyV) (k : PropKey) (v : ArgVal) (st : RecSt),
        (setTrap p k v st).1 = true ∧ (setTrap p k v st).2.spy = st.spy)
    ∧ (∀ (p : ProxyV) (k : PropKey) (st : RecSt), (getTrap p k st).2.spy = st.spy)
    ∧ (∀ (p : ProxyV) (t : Option ProxyV) (as : List ArgVal) (st : RecSt),
        (applyTrap p t as st).2.spy = st.spy)
    ∧ (∀ (p : ProxyV) (s : String) (st : RecSt),
        s = "then" ∨ (getTrap p (.str s) st).1
          = .placeholder { pid := st.nextPid, targetId := mkId st.ctr, kind := .dummy })
    ∧ (∀ (p : ProxyV) (t : Option ProxyV) (as : List ArgVal) (st : RecSt),
        (applyTrap p t as st).1
          = { pid := st.nextPid, targetId := mkId st.ctr, kind := .dummy })
    ∧ (∀ (p : ProxyV) (as : List ArgVal) (st : RecSt),
        (constructTrap p as st).1
          = { pid := st.nextPid, targetId := mkId st.ctr, kind := .dummy }) := by
  refine ⟨?_, setTrap_spec, getTrap_spy, applyTrap_spy, getTrap_fresh,
    applyTrap_fresh, constructTrap_fresh⟩
  exact runM_spy acts (initMachine sp) ⟨[], rfl, by simp⟩

/-- Claim C9: the reserved introspection keys are answered with fixed
neutral values and are not recorded: reading `then` yields `undefined`,
`Symbol.iterator` yields `undefined`, and `Symbol.toStringTag` yields
`RecorderProxy`, each leaving the recorder state (in particular the
operation log) completely unchanged. -/
theorem reserved_introspection_not_recorded (p : ProxyV) (st : RecSt) :
    getTrap p (.str "then") st = (.value .undefined, st)
    ∧ getTrap p .symIterator st = (.value .undefined, st)
    ∧ getTrap p .symToStringTag st = (.value (.str "RecorderProxy"), st) :=
  ⟨rfl, rfl, rfl⟩

/-- Claim C2: three chained reads `read(a).read(b).read(c)` on the root
stand-in append exactly three `get` records in order, and the records
chain: the second record's target is the first record's `resultId`, and
the third record's target is the second record's `resultId` (each
returned placeholder records under the `resultId` it was created
with). -/
theorem chained_reads_append_three_records (a b c : String) (sp : SpyState)
    (ha : a ≠ "then") (hb : b ≠ "then") (hc : c ≠ "then") :
    ∃ r1 r2 r3 : Operation,
      (runM [.get 0 (.str a), .get 1 (.str b), .get 2 (.str c)]
          (initMachine sp)).rs.recordings = [r1, r2, r3]
      ∧ r1.type = "get" ∧ r2.type = "get" ∧ r3.type = "get"
      ∧ r1.target = "globalThis"
      ∧ r1.property = a ∧ r2.property = b ∧ r3.property = c
      ∧ some r2.target = r1.resultId
      ∧ some r3.target = r2.resultId := by
  refine ⟨{ type := "get", target := "globalThis", property := a,
            receiver := some (mkId 1), resultId := some (mkId 0) },
          { type := "get", target := mkId 0, property := b,
            receiver := some (mkId 0), resultId := some (mkId 2) },
          { type := "get", target := mkId 2, property := c,
            receiver := some (mkId 2), resultId := some (mkId 3) },
          ?_, rfl, rfl, rfl, rfl, rfl, rfl, rfl, rfl, rfl⟩
  simp [runM, stepM, initMachine, rootProxy, getTrap, ha, hb, hc, getObjectId,
    createDummyObject, recordOp, mget, mset, merase]

/-- Witness for the chained-reads theorem at concrete member names. -/
theorem chained_reads_append_three_records_witness :
    ∃ r1 r2 r3 : Operation,
      (runM [.get 0 (.str "document"), .get 1 (.str "body"), .get 2 (.str "style")]
          (initMachine { reads := 0, writes := 0, calls := 0, constructs := 0,
                         nameValue := "", props := [] })).rs.recordings = [r1, r2, r3]
      ∧ r1.type = "get" ∧ r2.type = "get" ∧ r3.type = "get"
      ∧ r1.target = "globalThis"
      ∧ r1.property = "document" ∧ r2.property = "body" ∧ r3.property = "style"
      ∧ some r2.target = r1.resultId
      ∧ some r3.target = r2.resultId :=
  chained_reads_append_three_records "document" "body" "style"
    { reads := 0, writes := 0, calls := 0, constructs := 0, nameValue := "", props := [] }
    (by decide) (by decide) (by decide)

end Rec
